import Mathlib

/-!
# Verification of the `find_peaks` peak-detection library

Shallow embedding of `src/lib.rs` (crate `find_peaks`).  The generic sample
type `T` and position type `S` (required to support `Clone`,
`Sub<Output = Self>` and `PartialOrd`) are instantiated at `Int`, a faithful
instance of that capability set; `usize` plateau sizes are `Nat`.  Rust's
fallible operations (indexing that may go out of bounds, asserting builder
methods) are modelled with `Option`: `none` models a panic.
-/

/-- Rust `struct Limits<T> { lower: Option<T>, upper: Option<T> }`. -/
structure Limits (α : Type) where
  lower : Option α
  upper : Option α
deriving DecidableEq, Repr

/-- Rust `Limits::empty()`. -/
def Limits.empty {α : Type} : Limits α := ⟨none, none⟩

/-- Rust `Limits::is_empty`: both bounds absent. -/
def Limits.is_empty {α : Type} (l : Limits α) : Bool :=
  l.lower.isNone && l.upper.isNone

/-- Rust `Limits::is_inside`: `(lower.is_none || v ≥ lower) && (upper.is_none || v ≤ upper)`. -/
def Limits.is_inside {α : Type} [LE α] [DecidableRel (fun a b : α => a ≤ b)]
    (l : Limits α) (v : α) : Bool :=
  (match l.lower with
   | none => true
   | some lo => decide (lo ≤ v)) &&
  (match l.upper with
   | none => true
   | some hi => decide (v ≤ hi))

/-- Rust `struct Peak<T>`.  `position: Range<usize>` is split into its two
endpoints `start` and `stop` (`end` is a Lean keyword). -/
structure Peak where
  start : Nat
  stop : Nat
  left_diff : Int
  right_diff : Int
  height : Option Int
  prominence : Option Int
deriving DecidableEq, Repr

/-- Rust `Peak::middle_position`: `(start + end) / 2` in integer division. -/
def Peak.middle_position (p : Peak) : Nat :=
  (p.start + p.stop) / 2

/-- Rust `struct PeakFinder<'a, T, S>` with `T = S = Int`. -/
structure PeakFinder where
  y_data : List Int
  x_data : List Int
  height : Limits Int
  prominence : Limits Int
  difference : Limits Int
  plateau_size : Limits Nat
  distance : Limits Int
  zero : Option Int
deriving DecidableEq, Repr

/-- Rust `PeakFinder::new`: default `x_data` is `0..len`, and for non-empty
data the difference limit defaults to `{lower: Some(y[0] - y[0]), upper: None}`. -/
def PeakFinder.new (y : List Int) : PeakFinder :=
  let x : List Int := (List.range y.length).map (fun n => (n : Int))
  match y with
  | [] =>
      { y_data := y, x_data := x, height := Limits.empty, prominence := Limits.empty,
        difference := Limits.empty, plateau_size := Limits.empty,
        distance := Limits.empty, zero := none }
  | y0 :: _ =>
      { y_data := y, x_data := x, height := Limits.empty, prominence := Limits.empty,
        difference := ⟨some (y0 - y0), none⟩, plateau_size := Limits.empty,
        distance := Limits.empty, zero := some (y0 - y0) }

/-- Rust `PeakFinder::new_with_x`. -/
def PeakFinder.new_with_x (y : List Int) (x : List Int) : PeakFinder :=
  match y with
  | [] =>
      { y_data := y, x_data := x, height := Limits.empty, prominence := Limits.empty,
        difference := Limits.empty, plateau_size := Limits.empty,
        distance := Limits.empty, zero := none }
  | y0 :: _ =>
      { y_data := y, x_data := x, height := Limits.empty, prominence := Limits.empty,
        difference := ⟨some (y0 - y0), none⟩, plateau_size := Limits.empty,
        distance := Limits.empty, zero := some (y0 - y0) }

/-- The loop body of Rust `get_local_maxima` (the `filter_map` over the
enumerated iterator), as a recursion on the samples not yet consumed.
`rest` is `y_data.drop i`, `prev` the sample at `i - 1`, `back_diff` the
propagated backward difference and `start` the open plateau start.  For
`T = Int` the derived `zero` of the Rust code is the literal `0`. -/
def lmGo (limit : Limits Int) : List Int → Nat → Int → Int → Option Nat → List Peak
  | [], _, _, _, _ => []
  | c :: rest, i, prev, back_diff, start =>
    if limit.is_inside back_diff && (prev - c == 0) then
      lmGo limit rest (i + 1) c back_diff (if start.isNone then some (i - 1) else start)
    else
      (if limit.is_inside (prev - c) && limit.is_inside back_diff then
        [⟨start.getD (i - 1), i, back_diff, prev - c, none, none⟩]
       else []) ++ lmGo limit rest (i + 1) c (0 - (prev - c)) none

/-- Rust `PeakFinder::get_local_maxima`.  The Rust code unconditionally pops
the first two samples off the iterator; `find_peaks` only ever calls it with
at least two samples, and with fewer this model returns `[]`. -/
def PeakFinder.get_local_maxima (pf : PeakFinder) : List Peak :=
  match pf.y_data with
  | y0 :: y1 :: rest => lmGo pf.difference rest 2 y1 (y1 - y0) none
  | _ => []

/-- Rust `PeakFinder::filter_plateau`. -/
def PeakFinder.filter_plateau (pf : PeakFinder) (peaks : List Peak) : List Peak :=
  if pf.plateau_size.is_empty then peaks
  else peaks.filter (fun p => pf.plateau_size.is_inside (p.stop - p.start))

/-- Rust `PeakFinder::filter_height`: reads `y_data[p.position.start]`
(always in bounds for real candidates, cf. `lmGo_good`), tests it, and
records it into `height` on success. -/
def PeakFinder.filter_height (pf : PeakFinder) (peaks : List Peak) : List Peak :=
  if pf.height.is_empty then peaks
  else peaks.filterMap (fun p =>
    let y := pf.y_data.getD p.start 0
    if pf.height.is_inside y then some { p with height := some y } else none)

/-- The left valley scan of Rust `calc_prominence`:
`data.iter().rev().skip(data.len() - i_left).take_while(|x| x <= data[i_left]).min_by(..)`,
i.e. the minimum of the values at indices `i_left - 1, …, 0` taken while
they do not exceed the plateau height. -/
def valley_left (y : List Int) (ph : Int) (iL : Nat) : Option Int :=
  (((y.take iL).reverse).takeWhile (fun v => decide (v ≤ ph))).min?

/-- The right valley scan of Rust `calc_prominence`:
`data.iter().skip(i_right + 1).take_while(|x| x <= data[i_left]).min_by(..)`. -/
def valley_right (y : List Int) (ph : Int) (iR : Nat) : Option Int :=
  ((y.drop (iR + 1)).takeWhile (fun v => decide (v ≤ ph))).min?

/-- Rust `PeakFinder::calc_prominence`.  `self.zero.clone().unwrap()` is
modelled with `Option.getD` (the field is populated whenever the data is
non-empty, which holds on every path reaching this function). -/
def PeakFinder.calc_prominence (pf : PeakFinder) (p : Peak) : Int :=
  let iL := p.start
  let iR := p.stop - 1
  let ph := pf.y_data.getD iL 0
  match valley_left pf.y_data ph iL, valley_right pf.y_data ph iR with
  | none, none => pf.zero.getD 0
  | some v, none => ph - v
  | none, some v => ph - v
  | some v1, some v2 => ph - (if v2 ≤ v1 then v1 else v2)

/-- Rust `PeakFinder::filter_prominence`. -/
def PeakFinder.filter_prominence (pf : PeakFinder) (peaks : List Peak) : List Peak :=
  if pf.prominence.is_empty then peaks
  else peaks.filterMap (fun p =>
    let prom := pf.calc_prominence p
    if pf.prominence.is_inside prom then some { p with prominence := some prom } else none)

/-- Rust `Option::partial_cmp`-induced strict order used by the sort
comparator `b.height.partial_cmp(&a.height)`: `None` is below `Some`. -/
def hLtB : Option Int → Option Int → Bool
  | none, none => false
  | none, some _ => true
  | some _, none => false
  | some a, some b => decide (a < b)

/-- "May come before" relation of the descending height sort: `a` may precede
`b` iff `a`'s key is not strictly below `b`'s. -/
def hGeRel (a b : Peak) : Prop := hLtB a.height b.height = false

instance : DecidableRel hGeRel := fun _ _ => instDecidableEqBool _ _

/-- The sort in Rust `filter_distance`:
`peaks.sort_unstable_by(|a, b| b.height.partial_cmp(&a.height).unwrap_or(Equal))`.
The source guarantees only a permutation ordered descending by the optional
`height` field; being unstable, it guarantees no particular order between
equal keys.  The model determinizes it as a stable insertion sort — the
order Rust's stdlib happens to produce in its small-slice insertion-sort
regime — but theorems quantifying over all inputs assert only the
tie-independent guarantees (descending key order, permutation of the
input); the tie order is relied on solely in concrete evaluations on short
slices. -/
def sortDesc (peaks : List Peak) : List Peak :=
  List.insertionSort hGeRel peaks

/-- The distance computation of Rust `filter_distance`:
`if x > x_prev { x - x_prev } else { x_prev - x }`. -/
def absD (xi xprev : Int) : Int :=
  if xprev < xi then xi - xprev else xprev - xi

/-- The position-sequence value the distance filter reads for a peak
(`x_data[peak.middle_position()]`, with a junk default for the out-of-range
case, which the caller models separately via `get?`). -/
def xAt (x : List Int) (p : Peak) : Int :=
  (x.get? p.middle_position).getD 0

/-- The suppression loop of Rust `filter_distance` (lines 289–300): `xprev`
is the position value of the most recently kept peak; `x.get? = none` models
an out-of-bounds `x_data[..]` panic. -/
def fdGo (limit : Limits Int) (x : List Int) : List Peak → Int → Option (List Peak)
  | [], _ => some []
  | p :: ps, xprev =>
    match x.get? p.middle_position with
    | none => none
    | some xi =>
      if limit.is_inside (absD xi xprev) then
        match fdGo limit x ps xi with
        | none => none
        | some out => some (p :: out)
      else fdGo limit x ps xprev

/-- Rust `PeakFinder::filter_distance`.  Note that `filtered.push(peaks[0].clone())`
and `x_data[peaks[0].middle_position()]` run unconditionally once the
distance limit is non-empty; `none` models the out-of-bounds panic on an
empty `peaks`. -/
def PeakFinder.filter_distance (pf : PeakFinder) (peaks : List Peak) : Option (List Peak) :=
  let sorted := sortDesc peaks
  if pf.distance.is_empty then some sorted
  else
    match sorted with
    | [] => none
    | p0 :: rest =>
      match pf.x_data.get? p0.middle_position with
      | none => none
      | some x0 =>
        match fdGo pf.distance pf.x_data rest x0 with
        | none => none
        | some out => some (p0 :: out)

/-- The candidates surviving the lazy stages of `find_peaks` (the iterator
`filter_prominence(filter_height(filter_plateau(get_local_maxima())))`,
collected). -/
def PeakFinder.survivors (pf : PeakFinder) : List Peak :=
  pf.filter_prominence (pf.filter_height (pf.filter_plateau pf.get_local_maxima))

/-- Rust `PeakFinder::find_peaks`. -/
def PeakFinder.find_peaks (pf : PeakFinder) : Option (List Peak) :=
  if pf.y_data.length = 0 ∨ pf.y_data.length = 1 then some []
  else pf.filter_distance pf.survivors

/-- Rust `with_min_height` (no validation). -/
def PeakFinder.with_min_height (pf : PeakFinder) (h : Int) : PeakFinder :=
  { pf with height := ⟨some h, pf.height.upper⟩ }

/-- Rust `with_max_height` (no validation). -/
def PeakFinder.with_max_height (pf : PeakFinder) (h : Int) : PeakFinder :=
  { pf with height := ⟨pf.height.lower, some h⟩ }

/-- Rust `with_min_prominence`: `assert!((v - v).le(&v))`; `none` models the
panic. -/
def PeakFinder.with_min_prominence (pf : PeakFinder) (v : Int) : Option PeakFinder :=
  if v - v ≤ v then some { pf with prominence := ⟨some v, pf.prominence.upper⟩ } else none

/-- Rust `with_max_prominence`: validated like `with_min_prominence`. -/
def PeakFinder.with_max_prominence (pf : PeakFinder) (v : Int) : Option PeakFinder :=
  if v - v ≤ v then some { pf with prominence := ⟨pf.prominence.lower, some v⟩ } else none

/-- Rust `with_min_difference`: validated. -/
def PeakFinder.with_min_difference (pf : PeakFinder) (v : Int) : Option PeakFinder :=
  if v - v ≤ v then some { pf with difference := ⟨some v, pf.difference.upper⟩ } else none

/-- Rust `with_max_difference`: validated. -/
def PeakFinder.with_max_difference (pf : PeakFinder) (v : Int) : Option PeakFinder :=
  if v - v ≤ v then some { pf with difference := ⟨pf.difference.lower, some v⟩ } else none

/-- Rust `with_min_plateau_size` (no validation). -/
def PeakFinder.with_min_plateau_size (pf : PeakFinder) (n : Nat) : PeakFinder :=
  { pf with plateau_size := ⟨some n, pf.plateau_size.upper⟩ }

/-- Rust `with_max_plateau_size` (no validation). -/
def PeakFinder.with_max_plateau_size (pf : PeakFinder) (n : Nat) : PeakFinder :=
  { pf with plateau_size := ⟨pf.plateau_size.lower, some n⟩ }

/-- Rust `with_min_distance`: validated. -/
def PeakFinder.with_min_distance (pf : PeakFinder) (v : Int) : Option PeakFinder :=
  if v - v ≤ v then some { pf with distance := ⟨some v, pf.distance.upper⟩ } else none

/-- Rust `with_max_distance`: validated. -/
def PeakFinder.with_max_distance (pf : PeakFinder) (v : Int) : Option PeakFinder :=
  if v - v ≤ v then some { pf with distance := ⟨pf.distance.lower, some v⟩ } else none

/-! ## Properties of the local-maximum scan -/

/-- Destructuring a successful `drop`: the index is in range, the head is the
sample at that index, and the tail is the next drop. -/
theorem drop_cons_facts {y : List Int} {i : Nat} {c : Int} {rest : List Int}
    (h : y.drop i = c :: rest) :
    i < y.length ∧ y.getD i 0 = c ∧ y.drop (i + 1) = rest := by
  have hlen : i < y.length := by
    by_contra hh
    push_neg at hh
    rw [List.drop_eq_nil_of_le hh] at h
    exact List.noConfusion h
  have hd := List.drop_eq_getElem_cons hlen
  rw [hd] at h
  have h1 : y[i] = c := (List.cons.injEq _ _ _ _ ▸ h).1
  have h2 : y.drop (i + 1) = rest := (List.cons.injEq _ _ _ _ ▸ h).2
  refine ⟨hlen, ?_, h2⟩
  simp [List.getD_eq_getElem?_getD, List.getElem?_eq_getElem hlen, h1]

/-- The invariants of every candidate emitted by the local-maximum scan:
the plateau sits strictly inside the data, all its samples are equal, the
recorded differences are the steps at its two edges, and both steps lie
inside the difference limit. -/
def GoodPeak (limit : Limits Int) (y : List Int) (p : Peak) : Prop :=
  1 ≤ p.start ∧ p.start < p.stop ∧ p.stop < y.length ∧
  (∀ j, p.start ≤ j → j < p.stop → y.getD j 0 = y.getD p.start 0) ∧
  p.left_diff = y.getD p.start 0 - y.getD (p.start - 1) 0 ∧
  p.right_diff = y.getD (p.stop - 1) 0 - y.getD p.stop 0 ∧
  limit.is_inside p.left_diff = true ∧
  limit.is_inside p.right_diff = true

/-- State invariant of the scan loop `lmGo` at index `i`. -/
def ScanInv (y : List Int) (i : Nat) (prev back_diff : Int) (start : Option Nat) : Prop :=
  2 ≤ i ∧ prev = y.getD (i - 1) 0 ∧
  (start = none → back_diff = y.getD (i - 1) 0 - y.getD (i - 2) 0) ∧
  (∀ s, start = some s → 1 ≤ s ∧ s < i ∧ (∀ j, s ≤ j → j < i → y.getD j 0 = prev) ∧
      back_diff = y.getD s 0 - y.getD (s - 1) 0)

theorem lmGo_good (limit : Limits Int) (y : List Int) :
    ∀ (rest : List Int) (i : Nat) (prev back_diff : Int) (start : Option Nat),
      y.drop i = rest → ScanInv y i prev back_diff start →
      ∀ p ∈ lmGo limit rest i prev back_diff start,
        GoodPeak limit y p ∧ p.height = none ∧ p.prominence = none := by
  intro rest
  induction rest with
  | nil =>
    intro i prev back_diff start _ _ p hp
    simp [lmGo] at hp
  | cons c rest ih =>
    intro i prev back_diff start hdrop hinv p hp
    obtain ⟨hlen, hgetc, hdrop'⟩ := drop_cons_facts hdrop
    obtain ⟨h2i, hprev, hnone, hsome⟩ := hinv
    rw [lmGo] at hp
    by_cases hflat : (limit.is_inside back_diff && (prev - c == 0)) = true
    · rw [if_pos hflat] at hp
      have hpc : prev = c := by
        have hb := (Bool.and_eq_true _ _).mp hflat
        have : prev - c = 0 := by
          have := hb.2
          exact Int.sub_eq_zero.mp (by exact_mod_cast beq_iff_eq.mp this) |> (fun h => by omega)
        omega
      refine ih (i + 1) c back_diff _ hdrop' ?_ p hp
      refine ⟨by omega, ?_, ?_, ?_⟩
      · have : i + 1 - 1 = i := by omega
        rw [this, hgetc]
      · intro habs
        cases hstart : start with
        | none => rw [hstart] at habs; simp at habs
        | some s0 => rw [hstart] at habs; simp at habs
      · intro s hs
        cases hstart : start with
        | none =>
          rw [hstart] at hs
          simp at hs
          subst hs
          refine ⟨by omega, by omega, ?_, ?_⟩
          · intro j hj1 hj2
            have hj : j = i - 1 ∨ j = i := by omega
            cases hj with
            | inl hj => rw [hj, ← hprev, hpc]
            | inr hj => rw [hj, hgetc]
          · have hb := hnone hstart
            have e : i - 1 - 1 = i - 2 := by omega
            rw [e]
            exact hb
        | some s0 =>
          rw [hstart] at hs
          simp at hs
          subst hs
          obtain ⟨hs1, hs2, hs3, hs4⟩ := hsome s0 hstart
          refine ⟨hs1, by omega, ?_, hs4⟩
          intro j hj1 hj2
          have hj : j < i ∨ j = i := by omega
          cases hj with
          | inl hj => rw [hs3 j hj1 hj, hpc]
          | inr hj => rw [hj, hgetc]
    · rw [if_neg hflat] at hp
      rw [List.mem_append] at hp
      cases hp with
      | inr hp' =>
        refine ih (i + 1) c _ none hdrop' ?_ p hp'
        refine ⟨by omega, ?_, ?_, ?_⟩
        · have : i + 1 - 1 = i := by omega
          rw [this, hgetc]
        · intro _
          have e1 : i + 1 - 1 = i := by omega
          have e2 : i + 1 - 2 = i - 1 := by omega
          rw [e1, e2, hgetc, ← hprev]
          ring
        · intro s hs
          exact absurd hs (by simp)
      | inl hp' =>
        by_cases hemit : (limit.is_inside (prev - c) && limit.is_inside back_diff) = true
        · rw [if_pos hemit] at hp'
          simp at hp'
          subst hp'
          obtain ⟨hin1, hin2⟩ := (Bool.and_eq_true _ _).mp hemit
          cases hstart : start with
          | none =>
            refine ⟨?_, rfl, rfl⟩
            simp only [GoodPeak, Option.getD_none]
            refine ⟨by omega, by omega, hlen, ?_, ?_, ?_, hin2, hin1⟩
            · intro j hj1 hj2
              have : j = i - 1 := by omega
              rw [this]
            · have hb := hnone hstart
              have e : i - 1 - 1 = i - 2 := by omega
              rw [e]
              exact hb
            · rw [← hprev, hgetc]
          | some s0 =>
            obtain ⟨hs1, hs2, hs3, hs4⟩ := hsome s0 hstart
            refine ⟨?_, rfl, rfl⟩
            simp only [GoodPeak, Option.getD_some]
            refine ⟨hs1, by omega, hlen, ?_, hs4, ?_, hin2, hin1⟩
            · intro j hj1 hj2
              rw [hs3 j hj1 hj2, hs3 s0 (by omega) hs2]
            · rw [← hprev, hgetc]
        · rw [if_neg hemit] at hp'
          simp at hp'

/-- Every candidate of `get_local_maxima` satisfies the scan invariants. -/
theorem lm_good (pf : PeakFinder) :
    ∀ p ∈ pf.get_local_maxima,
      GoodPeak pf.difference pf.y_data p ∧ p.height = none ∧ p.prominence = none := by
  intro p hp
  unfold PeakFinder.get_local_maxima at hp
  rcases hy : pf.y_data with _ | ⟨y0, _ | ⟨y1, rest⟩⟩
  · rw [hy] at hp; simp at hp
  · rw [hy] at hp; simp at hp
  · rw [hy] at hp
    exact lmGo_good pf.difference (y0 :: y1 :: rest) rest 2 y1 (y1 - y0) none
      (by simp) ⟨by omega, rfl, fun _ => rfl, fun s hs => by simp at hs⟩ p hp

/-! ## Properties of the height sort and the distance filter -/

/-- A value inside a limit whose lower bound is present is at least that bound. -/
theorem is_inside_lower {l : Limits Int} {d v : Int} (h : l.lower = some d)
    (hv : l.is_inside v = true) : d ≤ v := by
  unfold Limits.is_inside at hv
  rw [h] at hv
  exact of_decide_eq_true ((Bool.and_eq_true _ _).mp hv).1

theorem hLtB_total (x y : Option Int) : hLtB x y = false ∨ hLtB y x = false := by
  cases x <;> cases y <;> simp [hLtB] <;> omega

theorem hLtB_trans {x y z : Option Int} (h1 : hLtB x y = false) (h2 : hLtB y z = false) :
    hLtB x z = false := by
  cases x <;> cases y <;> cases z <;> simp [hLtB] at * <;> omega

instance : IsTotal Peak hGeRel := ⟨fun a b => hLtB_total a.height b.height⟩

instance : IsTrans Peak hGeRel := ⟨fun _ _ _ h1 h2 => hLtB_trans h1 h2⟩

theorem sortDesc_perm (l : List Peak) : List.Perm (sortDesc l) l :=
  List.perm_insertionSort _ _

theorem mem_sortDesc {l : List Peak} {p : Peak} : p ∈ sortDesc l ↔ p ∈ l :=
  (sortDesc_perm l).mem_iff

theorem sortDesc_sorted (l : List Peak) : List.Pairwise hGeRel (sortDesc l) :=
  List.sorted_insertionSort hGeRel l

/-- What the suppression loop guarantees on success: the kept peaks are a
subsequence of the input, the first kept one is within the distance bound of
the incoming `xprev`, and each later kept peak is within the bound of the
previous kept one. -/
theorem fdGo_spec (limit : Limits Int) (x : List Int) :
    ∀ (ps : List Peak) (xprev : Int) (out : List Peak),
      fdGo limit x ps xprev = some out →
      out.Sublist ps ∧
      (∀ b ∈ out.head?, limit.is_inside (absD (xAt x b) xprev) = true) ∧
      List.Chain' (fun a b => limit.is_inside (absD (xAt x b) (xAt x a)) = true) out := by
  intro ps
  induction ps with
  | nil =>
    intro xprev out h
    simp [fdGo] at h
    subst h
    simp
  | cons p ps ih =>
    intro xprev out h
    rw [fdGo] at h
    split at h
    · exact absurd h (by simp)
    · rename_i xi hx
      have hxAtp : xAt x p = xi := by unfold xAt; rw [hx]; rfl
      split at h
      · rename_i hin
        split at h
        · exact absurd h (by simp)
        · rename_i out' hrec
          have hout : out = p :: out' := by
            cases h
            rfl
          subst hout
          obtain ⟨hsub, hhead, hchain⟩ := ih xi out' hrec
          refine ⟨List.Sublist.cons₂ p hsub, ?_, ?_⟩
          · intro b hb
            simp at hb
            subst hb
            rw [hxAtp]
            exact hin
          · rw [List.chain'_cons']
            refine ⟨?_, hchain⟩
            intro b hb
            rw [hxAtp]
            exact hhead b hb
      · rename_i hin
        obtain ⟨hsub, hhead, hchain⟩ := ih xprev out h
        exact ⟨hsub.cons p, hhead, hchain⟩

/-- What `filter_distance` guarantees on success. -/
theorem filter_distance_spec (pf : PeakFinder) (peaks out : List Peak)
    (h : pf.filter_distance peaks = some out) :
    out.Sublist (sortDesc peaks) ∧
    (pf.distance.is_empty = true → out = sortDesc peaks) ∧
    (pf.distance.is_empty = false →
      out.head? = (sortDesc peaks).head? ∧
      List.Chain' (fun a b =>
        pf.distance.is_inside (absD (xAt pf.x_data b) (xAt pf.x_data a)) = true) out) := by
  unfold PeakFinder.filter_distance at h
  by_cases hemp : pf.distance.is_empty = true
  · rw [if_pos hemp] at h
    have hout : out = sortDesc peaks := by cases h; rfl
    subst hout
    exact ⟨List.Sublist.refl _, fun _ => rfl, fun hc => absurd hemp (by simp [hc])⟩
  · rw [if_neg hemp] at h
    split at h
    · exact absurd h (by simp)
    · rename_i p0 rest hs
      split at h
      · exact absurd h (by simp)
      · rename_i x0 hx
        split at h
        · exact absurd h (by simp)
        · rename_i out1 hrec
          have hout : out = p0 :: out1 := by cases h; rfl
          subst hout
          obtain ⟨hsub, hhead, hchain⟩ := fdGo_spec pf.distance pf.x_data rest x0 out1 hrec
          have hx0 : xAt pf.x_data p0 = x0 := by unfold xAt; rw [hx]; rfl
          refine ⟨?_, fun hc => absurd hc hemp, fun _ => ⟨?_, ?_⟩⟩
          · rw [hs]
            exact List.Sublist.cons₂ p0 hsub
          · rw [hs]
            rfl
          · rw [List.chain'_cons']
            refine ⟨?_, hchain⟩
            intro b hb
            rw [hx0]
            exact hhead b hb

/-! ## Membership through the lazy filter stages -/

theorem mem_filter_plateau {pf : PeakFinder} {l : List Peak} {p : Peak}
    (h : p ∈ pf.filter_plateau l) : p ∈ l := by
  unfold PeakFinder.filter_plateau at h
  split at h
  · exact h
  · exact (List.mem_filter.mp h).1

theorem mem_filter_height {pf : PeakFinder} {l : List Peak} {q : Peak}
    (h : q ∈ pf.filter_height l) :
    ∃ p ∈ l, q.start = p.start ∧ q.stop = p.stop ∧ q.left_diff = p.left_diff ∧
      q.right_diff = p.right_diff ∧ q.prominence = p.prominence ∧
      ((pf.height.is_empty = true ∧ q.height = p.height) ∨
       (pf.height.is_empty = false ∧ q.height = some (pf.y_data.getD q.start 0) ∧
        pf.height.is_inside (pf.y_data.getD q.start 0) = true)) := by
  unfold PeakFinder.filter_height at h
  split at h
  case isTrue hemp => exact ⟨q, h, rfl, rfl, rfl, rfl, rfl, Or.inl ⟨hemp, rfl⟩⟩
  case isFalse hemp =>
    rw [List.mem_filterMap] at h
    obtain ⟨p, hp, hf⟩ := h
    dsimp only at hf
    split at hf
    case isTrue hin =>
      have hq : ({ p with height := some (pf.y_data.getD p.start 0) } : Peak) = q := by
        cases hf
        rfl
      subst hq
      exact ⟨p, hp, rfl, rfl, rfl, rfl, rfl, Or.inr ⟨by simpa using hemp, rfl, hin⟩⟩
    case isFalse => exact absurd hf (by simp)

theorem mem_filter_prominence {pf : PeakFinder} {l : List Peak} {q : Peak}
    (h : q ∈ pf.filter_prominence l) :
    ∃ p ∈ l, q.start = p.start ∧ q.stop = p.stop ∧ q.left_diff = p.left_diff ∧
      q.right_diff = p.right_diff ∧ q.height = p.height ∧
      ((pf.prominence.is_empty = true ∧ q.prominence = p.prominence) ∨
       (pf.prominence.is_empty = false ∧ q.prominence = some (pf.calc_prominence p) ∧
        pf.prominence.is_inside (pf.calc_prominence p) = true)) := by
  unfold PeakFinder.filter_prominence at h
  split at h
  case isTrue hemp => exact ⟨q, h, rfl, rfl, rfl, rfl, rfl, Or.inl ⟨hemp, rfl⟩⟩
  case isFalse hemp =>
    rw [List.mem_filterMap] at h
    obtain ⟨p, hp, hf⟩ := h
    dsimp only at hf
    split at hf
    case isTrue hin =>
      have hq : ({ p with prominence := some (pf.calc_prominence p) } : Peak) = q := by
        cases hf
        rfl
      subst hq
      exact ⟨p, hp, rfl, rfl, rfl, rfl, rfl, Or.inr ⟨by simpa using hemp, rfl, hin⟩⟩
    case isFalse => exact absurd hf (by simp)

/-- `GoodPeak` only depends on the position range and the two diffs. -/
theorem GoodPeak_of_eqs {limit : Limits Int} {y : List Int} {p q : Peak}
    (h : GoodPeak limit y p) (h1 : q.start = p.start) (h2 : q.stop = p.stop)
    (h3 : q.left_diff = p.left_diff) (h4 : q.right_diff = p.right_diff) :
    GoodPeak limit y q := by
  unfold GoodPeak at *
  rw [h1, h2, h3, h4]
  exact h

/-- `calc_prominence` only depends on the position range. -/
theorem calc_prominence_congr {pf : PeakFinder} {p q : Peak}
    (h1 : q.start = p.start) (h2 : q.stop = p.stop) :
    pf.calc_prominence q = pf.calc_prominence p := by
  unfold PeakFinder.calc_prominence
  rw [h1, h2]

/-- Everything known about a candidate surviving the three lazy filter
stages of `find_peaks`. -/
theorem survivors_spec {pf : PeakFinder} {q : Peak} (h : q ∈ pf.survivors) :
    GoodPeak pf.difference pf.y_data q ∧
    (pf.height.is_empty = true → q.height = none) ∧
    (pf.height.is_empty = false → q.height = some (pf.y_data.getD q.start 0) ∧
      pf.height.is_inside (pf.y_data.getD q.start 0) = true) ∧
    (pf.prominence.is_empty = true → q.prominence = none) ∧
    (pf.prominence.is_empty = false → q.prominence = some (pf.calc_prominence q) ∧
      pf.prominence.is_inside (pf.calc_prominence q) = true) := by
  unfold PeakFinder.survivors at h
  obtain ⟨p2, hp2, e1, e2, e3, e4, e5, hcase2⟩ := mem_filter_prominence h
  obtain ⟨p1, hp1, f1, f2, f3, f4, f5, hcase1⟩ := mem_filter_height hp2
  have hp0 := mem_filter_plateau hp1
  obtain ⟨good, hh1, hh2⟩ := lm_good pf p1 hp0
  have hgood : GoodPeak pf.difference pf.y_data q :=
    GoodPeak_of_eqs good (by rw [e1, f1]) (by rw [e2, f2]) (by rw [e3, f3]) (by rw [e4, f4])
  refine ⟨hgood, ?_, ?_, ?_, ?_⟩
  · intro hhe
    rcases hcase1 with ⟨_, hq⟩ | ⟨hne, _, _⟩
    · rw [e5, hq, hh1]
    · rw [hhe] at hne
      exact absurd hne (by simp)
  · intro hhe
    rcases hcase1 with ⟨hte, _⟩ | ⟨_, hq, hin⟩
    · rw [hhe] at hte
      exact absurd hte (by simp)
    · rw [e5, e1]
      exact ⟨hq, hin⟩
  · intro hpe
    rcases hcase2 with ⟨_, hq⟩ | ⟨hne, _, _⟩
    · rw [hq, f5]
      exact hh2
    · rw [hpe] at hne
      exact absurd hne (by simp)
  · intro hpe
    rcases hcase2 with ⟨hte, _⟩ | ⟨_, hq, hin⟩
    · rw [hpe] at hte
      exact absurd hte (by simp)
    · rw [calc_prominence_congr e1 e2]
      exact ⟨hq, hin⟩

/-- Every peak of a successful `find_peaks` run is a surviving candidate. -/
theorem mem_find_peaks {pf : PeakFinder} {out : List Peak} {q : Peak}
    (h : pf.find_peaks = some out) (hq : q ∈ out) : q ∈ pf.survivors := by
  unfold PeakFinder.find_peaks at h
  split at h
  · have hout : out = [] := by cases h; rfl
    subst hout
    simp at hq
  · obtain ⟨hsub, _, _⟩ := filter_distance_spec pf pf.survivors out h
    exact mem_sortDesc.mp (hsub.subset hq)

/-- A successful `find_peaks` output is descending in the optional `height`
field (the sort key of `filter_distance`). -/
theorem find_peaks_sorted {pf : PeakFinder} {out : List Peak}
    (h : pf.find_peaks = some out) : List.Pairwise hGeRel out := by
  unfold PeakFinder.find_peaks at h
  split at h
  · have hout : out = [] := by cases h; rfl
    subst hout
    simp
  · obtain ⟨hsub, _, _⟩ := filter_distance_spec pf pf.survivors out h
    exact (sortDesc_sorted pf.survivors).sublist hsub

/-! ## Properties of the prominence valley scans -/

/-- Modelled from the spec (§4.5, as amended): scan a list of samples in
order, stopping before the first sample exceeding the plateau height `ph`,
and track the minimum value seen; absent iff no sample was scanned. -/
def specScan (ph : Int) : List Int → Option Int
  | [] => none
  | v :: rest =>
    if ph < v then none
    else
      match specScan ph rest with
      | none => some v
      | some m => some (if v ≤ m then v else m)

/-- The take-while-then-minimum computation of the Rust valley scans equals
the direct min-tracking scan. -/
theorem specScan_eq (ph : Int) :
    ∀ l : List Int, specScan ph l = (l.takeWhile (fun v => decide (v ≤ ph))).min? := by
  intro l
  induction l with
  | nil => rfl
  | cons v rest ih =>
    rw [specScan]
    by_cases hv : ph < v
    · rw [if_pos hv, List.takeWhile_cons_of_neg (by simp; omega)]
      rfl
    · rw [if_neg hv, List.takeWhile_cons_of_pos (by simp; omega), ih, List.min?_cons]
      cases hm : (rest.takeWhile (fun v => decide (v ≤ ph))).min? with
      | none => rfl
      | some m => simp [min_def]

theorem valley_left_eq_specScan (y : List Int) (ph : Int) (iL : Nat) :
    valley_left y ph iL = specScan ph ((y.take iL).reverse) := by
  rw [valley_left, specScan_eq]

theorem valley_right_eq_specScan (y : List Int) (ph : Int) (iR : Nat) :
    valley_right y ph iR = specScan ph (y.drop (iR + 1)) := by
  rw [valley_right, specScan_eq]

/-- The left valley is absent iff the sample immediately left of the plateau
already exceeds the plateau height (for an in-range, positive `iL`). -/
theorem valley_left_none_iff {y : List Int} {ph : Int} {iL : Nat}
    (h1 : 1 ≤ iL) (h2 : iL ≤ y.length) :
    (valley_left y ph iL = none ↔ ph < y.getD (iL - 1) 0) := by
  unfold valley_left
  have hlt : iL - 1 < y.length := by omega
  have hlen : (y.take iL).length = iL := by
    rw [List.length_take]
    omega
  have hhead : ((y.take iL).reverse).head? = some (y.getD (iL - 1) 0) := by
    rw [List.head?_reverse, List.getLast?_eq_getElem?, hlen,
      List.getElem?_take_of_lt (by omega), List.getElem?_eq_getElem hlt]
    simp [List.getD_eq_getElem?_getD, List.getElem?_eq_getElem hlt]
  obtain ⟨hd, tl, hcons⟩ : ∃ hd tl, (y.take iL).reverse = hd :: tl := by
    cases hc : (y.take iL).reverse with
    | nil => rw [hc] at hhead; exact absurd hhead (by simp)
    | cons a t => exact ⟨a, t, rfl⟩
  rw [hcons] at hhead
  have hd_eq : hd = y.getD (iL - 1) 0 := by
    simpa using hhead
  subst hd_eq
  rw [hcons, List.min?_eq_none_iff, List.takeWhile_cons]
  by_cases hq : y.getD (iL - 1) 0 ≤ ph
  · simp [hq]
  · simp [hq]

/-- The right valley is absent iff the sample immediately right of the
plateau already exceeds the plateau height (for an in-range scan start). -/
theorem valley_right_none_iff {y : List Int} {ph : Int} {iR : Nat}
    (h2 : iR + 1 < y.length) :
    (valley_right y ph iR = none ↔ ph < y.getD (iR + 1) 0) := by
  unfold valley_right
  rw [List.drop_eq_getElem_cons h2]
  have he : y[iR + 1] = y.getD (iR + 1) 0 := by
    simp [List.getD_eq_getElem?_getD, List.getElem?_eq_getElem h2]
  rw [he, List.min?_eq_none_iff, List.takeWhile_cons]
  by_cases hq : y.getD (iR + 1) 0 ≤ ph
  · simp [hq]
  · simp [hq]

theorem valley_left_isSome {y : List Int} {ph : Int} {iL : Nat}
    (h1 : 1 ≤ iL) (h2 : iL ≤ y.length) (hle : y.getD (iL - 1) 0 ≤ ph) :
    ∃ v, valley_left y ph iL = some v := by
  cases hv : valley_left y ph iL with
  | some v => exact ⟨v, rfl⟩
  | none =>
    have := (valley_left_none_iff h1 h2).mp hv
    omega

theorem valley_right_isSome {y : List Int} {ph : Int} {iR : Nat}
    (h2 : iR + 1 < y.length) (hle : y.getD (iR + 1) 0 ≤ ph) :
    ∃ v, valley_right y ph iR = some v := by
  cases hv : valley_right y ph iR with
  | some v => exact ⟨v, rfl⟩
  | none =>
    have := (valley_right_none_iff h2).mp hv
    omega

/-- With both valleys defined, prominence is the height minus the higher
valley floor. -/
theorem calc_prominence_both {pf : PeakFinder} {p : Peak} {vl vr : Int}
    (hl : valley_left pf.y_data (pf.y_data.getD p.start 0) p.start = some vl)
    (hr : valley_right pf.y_data (pf.y_data.getD p.start 0) (p.stop - 1) = some vr) :
    pf.calc_prominence p = pf.y_data.getD p.start 0 - max vl vr := by
  unfold PeakFinder.calc_prominence
  dsimp only
  rw [hl, hr]
  dsimp only
  by_cases h : vr ≤ vl
  · rw [if_pos h, max_eq_left h]
  · rw [if_neg h, max_eq_right (le_of_lt (not_le.mp h))]

/-- With exactly the left valley defined, prominence is height minus it. -/
theorem calc_prominence_left {pf : PeakFinder} {p : Peak} {vl : Int}
    (hl : valley_left pf.y_data (pf.y_data.getD p.start 0) p.start = some vl)
    (hr : valley_right pf.y_data (pf.y_data.getD p.start 0) (p.stop - 1) = none) :
    pf.calc_prominence p = pf.y_data.getD p.start 0 - vl := by
  unfold PeakFinder.calc_prominence
  dsimp only
  rw [hl, hr]

/-- With exactly the right valley defined, prominence is height minus it. -/
theorem calc_prominence_right {pf : PeakFinder} {p : Peak} {vr : Int}
    (hl : valley_left pf.y_data (pf.y_data.getD p.start 0) p.start = none)
    (hr : valley_right pf.y_data (pf.y_data.getD p.start 0) (p.stop - 1) = some vr) :
    pf.calc_prominence p = pf.y_data.getD p.start 0 - vr := by
  unfold PeakFinder.calc_prominence
  dsimp only
  rw [hl, hr]

/-- With no valley defined, prominence is the derived zero. -/
theorem calc_prominence_neither {pf : PeakFinder} {p : Peak}
    (hl : valley_left pf.y_data (pf.y_data.getD p.start 0) p.start = none)
    (hr : valley_right pf.y_data (pf.y_data.getD p.start 0) (p.stop - 1) = none) :
    pf.calc_prominence p = pf.zero.getD 0 := by
  unfold PeakFinder.calc_prominence
  dsimp only
  rw [hl, hr]

/-! ## Configurations reachable through the public builder API -/

/-- The finders obtainable from a constructor on non-empty data followed by
any sequence of successful builder-method calls. -/
inductive Reachable : PeakFinder → Prop where
  | new (y : List Int) (h : y ≠ []) : Reachable (PeakFinder.new y)
  | new_with_x (y x : List Int) (h : y ≠ []) : Reachable (PeakFinder.new_with_x y x)
  | min_height (pf : PeakFinder) (v : Int) : Reachable pf → Reachable (pf.with_min_height v)
  | max_height (pf : PeakFinder) (v : Int) : Reachable pf → Reachable (pf.with_max_height v)
  | min_prom (pf pf' : PeakFinder) (v : Int) :
      Reachable pf → pf.with_min_prominence v = some pf' → Reachable pf'
  | max_prom (pf pf' : PeakFinder) (v : Int) :
      Reachable pf → pf.with_max_prominence v = some pf' → Reachable pf'
  | min_diff (pf pf' : PeakFinder) (v : Int) :
      Reachable pf → pf.with_min_difference v = some pf' → Reachable pf'
  | max_diff (pf pf' : PeakFinder) (v : Int) :
      Reachable pf → pf.with_max_difference v = some pf' → Reachable pf'
  | min_plateau (pf : PeakFinder) (n : Nat) :
      Reachable pf → Reachable (pf.with_min_plateau_size n)
  | max_plateau (pf : PeakFinder) (n : Nat) :
      Reachable pf → Reachable (pf.with_max_plateau_size n)
  | min_dist (pf pf' : PeakFinder) (v : Int) :
      Reachable pf → pf.with_min_distance v = some pf' → Reachable pf'
  | max_dist (pf pf' : PeakFinder) (v : Int) :
      Reachable pf → pf.with_max_distance v = some pf' → Reachable pf'

/-- On every reachable finder the difference limit's lower bound is present
and non-negative (construction sets it to the derived zero and no builder
method can remove it or make it negative). -/
theorem reachable_difference_lower {pf : PeakFinder} (h : Reachable pf) :
    ∃ d, pf.difference.lower = some d ∧ 0 ≤ d := by
  induction h with
  | new y hy =>
    cases y with
    | nil => exact absurd rfl hy
    | cons y0 t => exact ⟨y0 - y0, rfl, by omega⟩
  | new_with_x y x hy =>
    cases y with
    | nil => exact absurd rfl hy
    | cons y0 t => exact ⟨y0 - y0, rfl, by omega⟩
  | min_height pf v _ ih => exact ih
  | max_height pf v _ ih => exact ih
  | min_prom pf pf' v _ hset ih =>
    rw [PeakFinder.with_min_prominence] at hset
    split at hset
    · cases hset
      exact ih
    · exact absurd hset (by simp)
  | max_prom pf pf' v _ hset ih =>
    rw [PeakFinder.with_max_prominence] at hset
    split at hset
    · cases hset
      exact ih
    · exact absurd hset (by simp)
  | min_diff pf pf' v _ hset ih =>
    rw [PeakFinder.with_min_difference] at hset
    split at hset
    · rename_i hv
      cases hset
      exact ⟨v, rfl, by omega⟩
    · exact absurd hset (by simp)
  | max_diff pf pf' v _ hset ih =>
    rw [PeakFinder.with_max_difference] at hset
    split at hset
    · cases hset
      exact ih
    · exact absurd hset (by simp)
  | min_plateau pf n _ ih => exact ih
  | max_plateau pf n _ ih => exact ih
  | min_dist pf pf' v _ hset ih =>
    rw [PeakFinder.with_min_distance] at hset
    split at hset
    · cases hset
      exact ih
    · exact absurd hset (by simp)
  | max_dist pf pf' v _ hset ih =>
    rw [PeakFinder.with_max_distance] at hset
    split at hset
    · cases hset
      exact ih
    · exact absurd hset (by simp)

/-! ## Claim theorems -/

/-- C7: for every configuration, `find_peaks()` on a sample sequence with
fewer than 2 samples (length 0 or 1) returns an empty list without
signalling any error. -/
theorem find_peaks_short_input (pf : PeakFinder) (h : pf.y_data.length < 2) :
    pf.find_peaks = some [] := by
  unfold PeakFinder.find_peaks
  have h' : pf.y_data.length = 0 ∨ pf.y_data.length = 1 := by omega
  rw [if_pos h']

/-- Witness for `find_peaks_short_input` at a one-sample input with a
distance bound configured. -/
theorem find_peaks_short_input_witness :
    ((PeakFinder.new [(3 : Int)]).with_min_height 0).y_data.length < 2 ∧
    ((PeakFinder.new [(3 : Int)]).with_min_height 0).find_peaks = some [] :=
  ⟨by decide, find_peaks_short_input _ (by decide)⟩

/-- C5: on `y = [1, 2, 3, 0, 5, 0]` with default positions,
`with_min_height(0)` yields exactly the plateau `[4,5)` peak (height 5,
diffs 5/5) followed by the plateau `[2,3)` peak (height 3, diffs 1/3), and
additionally `with_min_prominence(1)` yields the same two peaks with
prominences 5 and 2. -/
theorem find_peaks_literal_scenarios :
    ((PeakFinder.new [1, 2, 3, 0, 5, 0]).with_min_height 0).find_peaks =
      some [⟨4, 5, 5, 5, some 5, none⟩, ⟨2, 3, 1, 3, some 3, none⟩] ∧
    (((PeakFinder.new [1, 2, 3, 0, 5, 0]).with_min_height 0).with_min_prominence 1).map
        PeakFinder.find_peaks =
      some (some [⟨4, 5, 5, 5, some 5, some 5⟩, ⟨2, 3, 1, 3, some 3, some 2⟩]) := by
  constructor
  · rfl
  · rfl

/-- C2: the claim that `find_peaks` never reads outside bounds fails:
on `y = [2, 2]` with a minimum distance configured no candidate survives,
and `filter_distance` unconditionally evaluates `peaks[0]` on the empty
vector (modelled `none` = panic); without the distance bound the same data
returns an empty list as the claim expects. -/
theorem filter_distance_empty_candidates_panic :
    ((PeakFinder.new [2, 2]).with_min_distance 1).map PeakFinder.find_peaks = some none ∧
    (PeakFinder.new [2, 2]).find_peaks = some [] := by
  constructor
  · rfl
  · rfl

/-- C1 counterexample: with no height bound configured the sort key
(`Option` height field) is `None` on every candidate, so `find_peaks` keeps
the candidate (ascending position) order; on `y = [1, 3, 1, 5, 1]` the
result is not descending in the raw plateau sample `y_data[start]`
(3 before 5), refuting the claimed ordering. -/
theorem find_peaks_not_sorted_by_raw_value :
    (PeakFinder.new [1, 3, 1, 5, 1]).find_peaks =
      some [⟨1, 2, 2, 2, none, none⟩, ⟨3, 4, 4, 4, none, none⟩] ∧
    ¬ List.Pairwise
        (fun a b : Peak => ([(1 : Int), 3, 1, 5, 1].getD b.start 0) ≤
          ([(1 : Int), 3, 1, 5, 1].getD a.start 0))
        ([⟨1, 2, 2, 2, none, none⟩, ⟨3, 4, 4, 4, none, none⟩] : List Peak) := by
  constructor
  · rfl
  · decide

/-- C8: each prominence, difference and distance setter signals a fatal
error (modelled `none`) exactly when called with a value negative relative
to the derived zero `v - v`, and otherwise records the bound; the
plateau-size setters perform no validation and always record the bound. -/
theorem builder_setter_validation (pf : PeakFinder) (v : Int) (n : Nat) :
    (pf.with_min_prominence v = none ↔ v < 0) ∧
    (pf.with_max_prominence v = none ↔ v < 0) ∧
    (pf.with_min_difference v = none ↔ v < 0) ∧
    (pf.with_max_difference v = none ↔ v < 0) ∧
    (pf.with_min_distance v = none ↔ v < 0) ∧
    (pf.with_max_distance v = none ↔ v < 0) ∧
    (v < 0 ∨ pf.with_min_prominence v =
      some { pf with prominence := ⟨some v, pf.prominence.upper⟩ }) ∧
    (v < 0 ∨ pf.with_max_prominence v =
      some { pf with prominence := ⟨pf.prominence.lower, some v⟩ }) ∧
    (v < 0 ∨ pf.with_min_difference v =
      some { pf with difference := ⟨some v, pf.difference.upper⟩ }) ∧
    (v < 0 ∨ pf.with_max_difference v =
      some { pf with difference := ⟨pf.difference.lower, some v⟩ }) ∧
    (v < 0 ∨ pf.with_min_distance v =
      some { pf with distance := ⟨some v, pf.distance.upper⟩ }) ∧
    (v < 0 ∨ pf.with_max_distance v =
      some { pf with distance := ⟨pf.distance.lower, some v⟩ }) ∧
    pf.with_min_plateau_size n = { pf with plateau_size := ⟨some n, pf.plateau_size.upper⟩ } ∧
    pf.with_max_plateau_size n = { pf with plateau_size := ⟨pf.plateau_size.lower, some n⟩ } := by
  unfold PeakFinder.with_min_prominence PeakFinder.with_max_prominence
    PeakFinder.with_min_difference PeakFinder.with_max_difference
    PeakFinder.with_min_distance PeakFinder.with_max_distance
    PeakFinder.with_min_plateau_size PeakFinder.with_max_plateau_size
  by_cases h0 : v - v ≤ v
  · have hv : ¬ (v < 0) := by omega
    simp only [if_pos h0]
    refine ⟨?_, ?_, ?_, ?_, ?_, ?_, ?_, ?_, ?_, ?_, ?_, ?_, ?_, ?_⟩ <;> simp [hv]
  · have hv : v < 0 := by omega
    simp only [if_neg h0]
    refine ⟨?_, ?_, ?_, ?_, ?_, ?_, ?_, ?_, ?_, ?_, ?_, ?_, ?_, ?_⟩ <;> simp [hv]

/-- C9: every peak produced by the local-maximum extraction (and hence
every peak in `find_peaks`' output) satisfies
`1 ≤ position.start < position.end ≤ length - 1` and all samples at indices
in `[start, end)` have equal value. -/
theorem local_maxima_position_invariants (pf : PeakFinder) :
    (∀ p ∈ pf.get_local_maxima,
      1 ≤ p.start ∧ p.start < p.stop ∧ p.stop + 1 ≤ pf.y_data.length ∧
      ∀ j, p.start ≤ j → j < p.stop → pf.y_data.getD j 0 = pf.y_data.getD p.start 0) ∧
    (∀ out q, pf.find_peaks = some out → q ∈ out →
      1 ≤ q.start ∧ q.start < q.stop ∧ q.stop + 1 ≤ pf.y_data.length ∧
      ∀ j, q.start ≤ j → j < q.stop → pf.y_data.getD j 0 = pf.y_data.getD q.start 0) := by
  constructor
  · intro p hp
    have hg := (lm_good pf p hp).1
    unfold GoodPeak at hg
    obtain ⟨g1, g2, g3, g4, _⟩ := hg
    exact ⟨g1, g2, by omega, g4⟩
  · intro out q hout hq
    have hg := (survivors_spec (mem_find_peaks hout hq)).1
    unfold GoodPeak at hg
    obtain ⟨g1, g2, g3, g4, _⟩ := hg
    exact ⟨g1, g2, by omega, g4⟩

/-- Witness for `local_maxima_position_invariants` on `y = [1, 2, 1]`. -/
theorem local_maxima_position_invariants_witness :
    (PeakFinder.new [1, 2, 1]).find_peaks = some [⟨1, 2, 1, 1, none, none⟩] ∧
    (1 ≤ (1 : Nat) ∧ 1 < 2 ∧ 2 + 1 ≤ (PeakFinder.new [1, 2, 1]).y_data.length ∧
      ∀ j, 1 ≤ j → j < 2 → (PeakFinder.new [1, 2, 1]).y_data.getD j 0 =
        (PeakFinder.new [1, 2, 1]).y_data.getD 1 0) :=
  ⟨rfl, (local_maxima_position_invariants (PeakFinder.new [1, 2, 1])).2
    [⟨1, 2, 1, 1, none, none⟩] ⟨1, 2, 1, 1, none, none⟩ rfl (by decide)⟩

/-- C6: a returned peak's `height` field is populated iff a height bound
was configured; when configured it equals `y_data[position.start]` and
satisfies the bound's `is_inside` test, and when not configured it is
absent on every returned peak. -/
theorem height_field_iff_height_bound (pf : PeakFinder) (out : List Peak) (q : Peak)
    (hout : pf.find_peaks = some out) (hq : q ∈ out) :
    (pf.height.is_empty = false →
      q.height = some (pf.y_data.getD q.start 0) ∧
      pf.height.is_inside (pf.y_data.getD q.start 0) = true) ∧
    (pf.height.is_empty = true → q.height = none) := by
  have h2 := survivors_spec (mem_find_peaks hout hq)
  exact ⟨h2.2.2.1, h2.2.1⟩

/-- Witness for `height_field_iff_height_bound` on the spec's literal
scenario. -/
theorem height_field_iff_height_bound_witness :
    ((PeakFinder.new [1, 2, 3, 0, 5, 0]).with_min_height 0).find_peaks =
      some [⟨4, 5, 5, 5, some 5, none⟩, ⟨2, 3, 1, 3, some 3, none⟩] ∧
    ((((PeakFinder.new [1, 2, 3, 0, 5, 0]).with_min_height 0).height.is_empty = false →
      (⟨4, 5, 5, 5, some 5, none⟩ : Peak).height =
        some (((PeakFinder.new [1, 2, 3, 0, 5, 0]).with_min_height 0).y_data.getD 4 0) ∧
      ((PeakFinder.new [1, 2, 3, 0, 5, 0]).with_min_height 0).height.is_inside
        (((PeakFinder.new [1, 2, 3, 0, 5, 0]).with_min_height 0).y_data.getD 4 0) = true) ∧
     (((PeakFinder.new [1, 2, 3, 0, 5, 0]).with_min_height 0).height.is_empty = true →
      (⟨4, 5, 5, 5, some 5, none⟩ : Peak).height = none)) :=
  ⟨rfl, height_field_iff_height_bound _ _ _ rfl (by decide)⟩

/-- On degenerate data (fewer than 2 samples) no candidate survives. -/
theorem survivors_short (pf : PeakFinder)
    (h : pf.y_data.length = 0 ∨ pf.y_data.length = 1) : pf.survivors = [] := by
  have hlm : pf.get_local_maxima = [] := by
    unfold PeakFinder.get_local_maxima
    rcases hy : pf.y_data with _ | ⟨a, _ | ⟨b, t⟩⟩
    · rfl
    · rfl
    · rw [hy] at h
      simp at h
  have h1 : pf.filter_plateau [] = [] := by
    unfold PeakFinder.filter_plateau
    split <;> rfl
  have h2 : pf.filter_height [] = [] := by
    unfold PeakFinder.filter_height
    split <;> rfl
  have h3 : pf.filter_prominence [] = [] := by
    unfold PeakFinder.filter_prominence
    split <;> rfl
  unfold PeakFinder.survivors
  rw [hlm, h1, h2, h3]

/-- C10: on every finder reachable from a constructor on non-empty data
through the builder methods, the difference limit's lower bound is present
and non-negative; consequently every emitted candidate has
`y[start-1] ≤ y[start]` and `y[end] ≤ y[end-1]`, both valley scans of
`calc_prominence` find at least one sample, and the zero-baseline branch
for two undefined valleys is unreachable. -/
theorem difference_lower_bound_invariant (pf : PeakFinder) (h : Reachable pf) :
    (∃ d, pf.difference.lower = some d ∧ 0 ≤ d) ∧
    ∀ p ∈ pf.get_local_maxima,
      pf.y_data.getD (p.start - 1) 0 ≤ pf.y_data.getD p.start 0 ∧
      pf.y_data.getD p.stop 0 ≤ pf.y_data.getD (p.stop - 1) 0 ∧
      (∃ vl, valley_left pf.y_data (pf.y_data.getD p.start 0) p.start = some vl) ∧
      (∃ vr, valley_right pf.y_data (pf.y_data.getD p.start 0) (p.stop - 1) = some vr) := by
  obtain ⟨d, hd, hd0⟩ := reachable_difference_lower h
  refine ⟨⟨d, hd, hd0⟩, ?_⟩
  intro p hp
  have hg := (lm_good pf p hp).1
  unfold GoodPeak at hg
  obtain ⟨g1, g2, g3, g4, g5, g6, g7, g8⟩ := hg
  have hld : 0 ≤ p.left_diff := le_trans hd0 (is_inside_lower hd g7)
  have hrd : 0 ≤ p.right_diff := le_trans hd0 (is_inside_lower hd g8)
  have hleft : pf.y_data.getD (p.start - 1) 0 ≤ pf.y_data.getD p.start 0 := by
    rw [g5] at hld
    omega
  have hplat : pf.y_data.getD (p.stop - 1) 0 = pf.y_data.getD p.start 0 :=
    g4 (p.stop - 1) (by omega) (by omega)
  have hright : pf.y_data.getD p.stop 0 ≤ pf.y_data.getD (p.stop - 1) 0 := by
    rw [g6] at hrd
    omega
  refine ⟨hleft, hright, valley_left_isSome g1 (by omega) hleft, ?_⟩
  refine valley_right_isSome (by omega) ?_
  have hstop : p.stop - 1 + 1 = p.stop := by omega
  rw [hstop]
  rw [hplat] at hright
  exact hright

/-- Witness for `difference_lower_bound_invariant` on `PeakFinder::new [1, 2, 1]`. -/
theorem difference_lower_bound_invariant_witness :
    (∃ d, (PeakFinder.new [1, 2, 1]).difference.lower = some d ∧ 0 ≤ d) ∧
    ∀ p ∈ (PeakFinder.new [1, 2, 1]).get_local_maxima,
      (PeakFinder.new [1, 2, 1]).y_data.getD (p.start - 1) 0 ≤
        (PeakFinder.new [1, 2, 1]).y_data.getD p.start 0 ∧
      (PeakFinder.new [1, 2, 1]).y_data.getD p.stop 0 ≤
        (PeakFinder.new [1, 2, 1]).y_data.getD (p.stop - 1) 0 ∧
      (∃ vl, valley_left (PeakFinder.new [1, 2, 1]).y_data
        ((PeakFinder.new [1, 2, 1]).y_data.getD p.start 0) p.start = some vl) ∧
      (∃ vr, valley_right (PeakFinder.new [1, 2, 1]).y_data
        ((PeakFinder.new [1, 2, 1]).y_data.getD p.start 0) (p.stop - 1) = some vr) :=
  difference_lower_bound_invariant (PeakFinder.new [1, 2, 1])
    (Reachable.new [1, 2, 1] (by decide))

/-- C4: when a distance bound is configured and at least one candidate
survives the earlier stages, a successful `find_peaks` always keeps the
first peak of the sorted order, and every pair of consecutively kept peaks
satisfies the distance bound on the absolute difference of their
`x_data[middle_position()]` values (the reference point being the most
recently kept peak, which is exactly the predecessor in the output). -/
theorem distance_filter_greedy (pf : PeakFinder) (out : List Peak)
    (hne : pf.distance.is_empty = false) (hout : pf.find_peaks = some out)
    (_hsur : pf.survivors ≠ []) :
    out.head? = (sortDesc pf.survivors).head? ∧
    List.Chain' (fun a b =>
      pf.distance.is_inside (absD (xAt pf.x_data b) (xAt pf.x_data a)) = true) out := by
  unfold PeakFinder.find_peaks at hout
  split at hout
  · rename_i hlen
    have hs := survivors_short pf hlen
    have hnil : out = [] := by cases hout; rfl
    subst hnil
    rw [hs]
    exact ⟨rfl, by simp⟩
  · exact (filter_distance_spec pf pf.survivors out hout).2.2 hne

/-- Witness for `distance_filter_greedy`: `y = [1, 2, 3, 0, 5, 0]` with
`with_min_distance(1)`. -/
theorem distance_filter_greedy_witness :
    ((((PeakFinder.new [1, 2, 3, 0, 5, 0]).with_min_distance 1).getD
        (PeakFinder.new [])).distance.is_empty = false ∧
      (((PeakFinder.new [1, 2, 3, 0, 5, 0]).with_min_distance 1).getD
        (PeakFinder.new [])).find_peaks =
        some [⟨2, 3, 1, 3, none, none⟩, ⟨4, 5, 5, 5, none, none⟩] ∧
      (((PeakFinder.new [1, 2, 3, 0, 5, 0]).with_min_distance 1).getD
        (PeakFinder.new [])).survivors ≠ []) ∧
    (([⟨2, 3, 1, 3, none, none⟩, ⟨4, 5, 5, 5, none, none⟩] : List Peak).head? =
      (sortDesc ((((PeakFinder.new [1, 2, 3, 0, 5, 0]).with_min_distance 1).getD
        (PeakFinder.new [])).survivors)).head? ∧
     List.Chain' (fun a b =>
       (((PeakFinder.new [1, 2, 3, 0, 5, 0]).with_min_distance 1).getD
         (PeakFinder.new [])).distance.is_inside
         (absD (xAt (((PeakFinder.new [1, 2, 3, 0, 5, 0]).with_min_distance 1).getD
            (PeakFinder.new [])).x_data b)
          (xAt (((PeakFinder.new [1, 2, 3, 0, 5, 0]).with_min_distance 1).getD
            (PeakFinder.new [])).x_data a)) = true)
       [⟨2, 3, 1, 3, none, none⟩, ⟨4, 5, 5, 5, none, none⟩]) :=
  ⟨⟨rfl, rfl, by decide⟩, distance_filter_greedy _ _ rfl rfl (by decide)⟩

/-- C3 counterexample: for the candidate with plateau `[2,3)` of
`y = [1, 2, 3, 0, 5, 0]` (which reaches the prominence filter when
`with_min_prominence(1)` is configured, cf. the third conjunct), the left
scan reaches index 0 without encountering any sample exceeding the plateau
height 3, yet the left valley is defined (`some 1`) rather than absent as
the claim states, and the computed prominence is 2 (= 3 - max 1 0), not the
3 the claimed rule would produce. -/
theorem valley_defined_without_exceeding_sample :
    (∀ v ∈ [(1 : Int), 2, 3, 0, 5, 0].take 2, v ≤ 3) ∧
    valley_left [1, 2, 3, 0, 5, 0] 3 2 = some 1 ∧
    (((PeakFinder.new [1, 2, 3, 0, 5, 0]).with_min_height 0).with_min_prominence 1).map
        PeakFinder.find_peaks =
      some (some [⟨4, 5, 5, 5, some 5, some 5⟩, ⟨2, 3, 1, 3, some 3, some 2⟩]) ∧
    (PeakFinder.new [1, 2, 3, 0, 5, 0]).calc_prominence ⟨2, 3, 1, 3, none, none⟩ = 2 :=
  ⟨by decide, rfl, rfl, rfl⟩

/-- C3 (amended): each valley scan computes the minimum over the maximal
run of consecutive samples not exceeding the plateau height (stopping
before the first exceeding sample); a valley is absent iff the sample next
to the plateau already exceeds the height — not when the scan reaches the
data edge without an exceeding sample; prominence then combines the valleys
as the claim states: height minus the higher floor when both are defined,
height minus the defined one when exactly one is, and the derived zero when
neither is. -/
theorem calc_prominence_valley_characterization (y : List Int) (ph : Int)
    (iL iR : Nat) (pf : PeakFinder) (p : Peak) :
    (valley_left y ph iL = specScan ph ((y.take iL).reverse)) ∧
    (valley_right y ph iR = specScan ph (y.drop (iR + 1))) ∧
    (1 ≤ iL → iL ≤ y.length →
      (valley_left y ph iL = none ↔ ph < y.getD (iL - 1) 0)) ∧
    (iR + 1 < y.length →
      (valley_right y ph iR = none ↔ ph < y.getD (iR + 1) 0)) ∧
    (∀ vl vr, valley_left pf.y_data (pf.y_data.getD p.start 0) p.start = some vl →
      valley_right pf.y_data (pf.y_data.getD p.start 0) (p.stop - 1) = some vr →
      pf.calc_prominence p = pf.y_data.getD p.start 0 - max vl vr) ∧
    (∀ vl, valley_left pf.y_data (pf.y_data.getD p.start 0) p.start = some vl →
      valley_right pf.y_data (pf.y_data.getD p.start 0) (p.stop - 1) = none →
      pf.calc_prominence p = pf.y_data.getD p.start 0 - vl) ∧
    (∀ vr, valley_left pf.y_data (pf.y_data.getD p.start 0) p.start = none →
      valley_right pf.y_data (pf.y_data.getD p.start 0) (p.stop - 1) = some vr →
      pf.calc_prominence p = pf.y_data.getD p.start 0 - vr) ∧
    (valley_left pf.y_data (pf.y_data.getD p.start 0) p.start = none →
      valley_right pf.y_data (pf.y_data.getD p.start 0) (p.stop - 1) = none →
      pf.calc_prominence p = pf.zero.getD 0) :=
  ⟨valley_left_eq_specScan y ph iL, valley_right_eq_specScan y ph iR,
   fun h1 h2 => valley_left_none_iff h1 h2,
   fun h2 => valley_right_none_iff h2,
   fun _ _ hl hr => calc_prominence_both hl hr,
   fun _ hl hr => calc_prominence_left hl hr,
   fun _ hl hr => calc_prominence_right hl hr,
   fun hl hr => calc_prominence_neither hl hr⟩

/-- Witness for `calc_prominence_valley_characterization`, with the inner
hypotheses discharged at the `[2,3)` candidate of `y = [1, 2, 3, 0, 5, 0]`. -/
theorem calc_prominence_valley_characterization_witness :
    (valley_left [(1 : Int), 2, 3, 0, 5, 0] 3 2 = none ↔
      (3 : Int) < [(1 : Int), 2, 3, 0, 5, 0].getD 1 0) ∧
    (PeakFinder.new [1, 2, 3, 0, 5, 0]).calc_prominence ⟨2, 3, 1, 3, none, none⟩ =
      (PeakFinder.new [1, 2, 3, 0, 5, 0]).y_data.getD 2 0 - max 1 0 :=
  ⟨(calc_prominence_valley_characterization [(1 : Int), 2, 3, 0, 5, 0] 3 2 2
      (PeakFinder.new [1, 2, 3, 0, 5, 0]) ⟨2, 3, 1, 3, none, none⟩).2.2.1
      (by decide) (by decide),
   (calc_prominence_valley_characterization [(1 : Int), 2, 3, 0, 5, 0] 3 2 2
      (PeakFinder.new [1, 2, 3, 0, 5, 0]) ⟨2, 3, 1, 3, none, none⟩).2.2.2.2.1
      1 0 rfl rfl⟩

/-- C1 (amended): a successful `find_peaks` output is always descending in
the sort key `filter_distance` actually uses — the optional `height` field,
with absent keys below present ones — and when the distance bound is empty
it is a permutation of the surviving candidates with no removals.  When a
height bound is configured this coincides with descending raw plateau value
`y_data[start]`.  The order between peaks with equal keys is not a source
guarantee (the sort is unstable); in particular, when no height bound is
configured all keys are absent and no raw-value-descending order is
established, so the ordering of the original claim fails. -/
theorem find_peaks_sorted_by_height_field (pf : PeakFinder) (out : List Peak)
    (hout : pf.find_peaks = some out) :
    List.Pairwise hGeRel out ∧
    (pf.distance.is_empty = true → List.Perm out pf.survivors) ∧
    (pf.height.is_empty = false →
      List.Pairwise (fun a b =>
        pf.y_data.getD b.start 0 ≤ pf.y_data.getD a.start 0) out) := by
  refine ⟨find_peaks_sorted hout, ?_, ?_⟩
  · intro hde
    unfold PeakFinder.find_peaks at hout
    split at hout
    · rename_i hlen
      have hs := survivors_short pf hlen
      have hnil : out = [] := by cases hout; rfl
      subst hnil
      rw [hs]
    · have he := (filter_distance_spec pf pf.survivors out hout).2.1 hde
      rw [he]
      exact sortDesc_perm pf.survivors
  · intro hhe
    refine List.Pairwise.imp_of_mem ?_ (find_peaks_sorted hout)
    intro a b ha hb hab
    have ha' := (survivors_spec (mem_find_peaks hout ha)).2.2.1 hhe
    have hb' := (survivors_spec (mem_find_peaks hout hb)).2.2.1 hhe
    unfold hGeRel at hab
    rw [ha'.1, hb'.1] at hab
    simp [hLtB] at hab
    simpa [List.getD_eq_getElem?_getD] using hab

/-- Witness for `find_peaks_sorted_by_height_field` on the literal
`with_min_height(0)` scenario. -/
theorem find_peaks_sorted_by_height_field_witness :
    ((PeakFinder.new [1, 2, 3, 0, 5, 0]).with_min_height 0).find_peaks =
      some [⟨4, 5, 5, 5, some 5, none⟩, ⟨2, 3, 1, 3, some 3, none⟩] ∧
    (List.Pairwise hGeRel
        ([⟨4, 5, 5, 5, some 5, none⟩, ⟨2, 3, 1, 3, some 3, none⟩] : List Peak) ∧
      (((PeakFinder.new [1, 2, 3, 0, 5, 0]).with_min_height 0).distance.is_empty = true →
        List.Perm ([⟨4, 5, 5, 5, some 5, none⟩, ⟨2, 3, 1, 3, some 3, none⟩] : List Peak)
          ((PeakFinder.new [1, 2, 3, 0, 5, 0]).with_min_height 0).survivors) ∧
      (((PeakFinder.new [1, 2, 3, 0, 5, 0]).with_min_height 0).height.is_empty = false →
        List.Pairwise (fun a b =>
          ((PeakFinder.new [1, 2, 3, 0, 5, 0]).with_min_height 0).y_data.getD b.start 0 ≤
            ((PeakFinder.new [1, 2, 3, 0, 5, 0]).with_min_height 0).y_data.getD a.start 0)
          ([⟨4, 5, 5, 5, some 5, none⟩, ⟨2, 3, 1, 3, some 3, none⟩] : List Peak))) :=
  ⟨rfl, find_peaks_sorted_by_height_field _ _ rfl⟩
